import Mathlib

/-!
Verification development for the go-blackscholes repository.

The Go source is shallowly embedded over an arbitrary linear ordered field
together with an environment of primitive numeric functions (exp, log, sqrt,
the standard normal CDF/PDF/quantile), which the Go code obtains from the
math package and from gonum.  All control flow, branch order and arithmetic
structure follow the Go source; float64 special values are modelled by the
type FP, which adjoins NaN and the two infinities to the field.
-/

namespace BS

/-- A float64 result: either a finite field value or one of the IEEE special
values NaN, positive infinity, negative infinity. -/
inductive FP (K : Type) where
  | fin : K → FP K
  | pinf : FP K
  | ninf : FP K
  | nan : FP K
deriving DecidableEq

variable {K : Type} [LinearOrderedField K]

/-- IEEE negation on the modelled float values. -/
def FP.neg : FP K → FP K
  | .fin a => .fin (-a)
  | .pinf => .ninf
  | .ninf => .pinf
  | .nan => .nan

/-- IEEE addition on the modelled float values (finite arithmetic is exact
field arithmetic; overflow is not modelled). -/
def FP.add : FP K → FP K → FP K
  | .nan, _ => .nan
  | _, .nan => .nan
  | .pinf, .ninf => .nan
  | .ninf, .pinf => .nan
  | .pinf, _ => .pinf
  | _, .pinf => .pinf
  | .ninf, _ => .ninf
  | _, .ninf => .ninf
  | .fin a, .fin b => .fin (a + b)

/-- IEEE subtraction, as addition of the negation. -/
def FP.sub (a b : FP K) : FP K := a.add b.neg

/-- Multiplication of a modelled float by a finite constant, as the Go code
does when it writes 2*x with x possibly infinite. -/
def FP.smul (c : K) : FP K → FP K
  | .fin a => .fin (c * a)
  | .pinf => if 0 < c then .pinf else if c < 0 then .ninf else .nan
  | .ninf => if 0 < c then .ninf else if c < 0 then .pinf else .nan
  | .nan => .nan

/-- IEEE strict comparison: any comparison against NaN is false. -/
def FP.lt : FP K → FP K → Bool
  | .nan, _ => false
  | _, .nan => false
  | .fin a, .fin b => decide (a < b)
  | .ninf, .ninf => false
  | .ninf, _ => true
  | _, .ninf => false
  | .pinf, _ => false
  | _, .pinf => true

/-- IEEE non-strict comparison: any comparison against NaN is false. -/
def FP.le : FP K → FP K → Bool
  | .nan, _ => false
  | _, .nan => false
  | .fin a, .fin b => decide (a ≤ b)
  | .ninf, _ => true
  | _, .ninf => false
  | _, .pinf => true
  | .pinf, _ => false

/-- OptionType is a rune in the Go source; any character value is a possible
input, only three are valid. -/
abbrev OptionType := Char

def Call : OptionType := 'c'

def Put : OptionType := 'p'

def Straddle : OptionType := 's'

/-- The error values of the package (errors.New / fmt.Errorf values). -/
inductive Err where
  | negVol
  | negTimeToExp
  | negPremium
  | negPrice
  | negStrike
  | unknownOptionType
  | nilPtrArg
  | nonconvergence
  | invalidSpotStrike
  | boundsNotFoundLower
  | boundsNotFoundUpper
  | maxIterations
  | invalidPathCount
deriving DecidableEq

/-- The primitive numeric functions the Go code takes from the math package
and from gonum (normal distribution), treated as parameters of the
embedding, together with the float constant InvSqrt2PI. -/
structure MathEnv (K : Type) where
  exp : K → K
  log : K → K
  sqrt : K → K
  normCDF : K → K
  normPDF : K → K
  normCDFInv : K → K
  invSqrt2PI : K

/-- ValidOptionType from blackscholes.go. -/
def ValidOptionType (o : OptionType) : Bool :=
  o == Call || o == Put || o == Straddle

/-- CheckPriceParams from blackscholes.go: option type first, then the three
negativity checks in source order. -/
def CheckPriceParams (t x k : K) (o : OptionType) : Option Err :=
  if !ValidOptionType o then some .unknownOptionType
  else if t < 0 then some .negTimeToExp
  else if x < 0 then some .negPrice
  else if k < 0 then some .negStrike
  else none

/-- Intrinsic from blackscholes.go: the discounted intrinsic value; note the
Go switch falls through to the absolute value for any non Call/Put type. -/
def Intrinsic (E : MathEnv K) (t x k r q : K) (o : OptionType) : K :=
  let forwardValue := E.exp (-q * t) * x - E.exp (-r * t) * k
  if o = Call then max 0 forwardValue
  else if o = Put then max 0 (-forwardValue)
  else |forwardValue|

/-- PriceZeroStrike from blackscholes.go. -/
def PriceZeroStrike (E : MathEnv K) (t x q : K) (o : OptionType) : FP K :=
  if o = Call ∨ o = Straddle then .fin (E.exp (-q * t) * x)
  else if o = Put then .fin 0
  else .nan

/-- PriceZeroSpot from blackscholes.go. -/
def PriceZeroSpot (E : MathEnv K) (t k r : K) (o : OptionType) : FP K :=
  if o = Call then .fin 0
  else if o = Put ∨ o = Straddle then .fin (E.exp (-r * t) * k)
  else .nan

/-- DeltaZeroStrike from blackscholes.go; its second parameter is named q in
the source and is the rate used in the discount factor. -/
def DeltaZeroStrike (E : MathEnv K) (t q : K) (o : OptionType) : FP K :=
  if o = Call ∨ o = Straddle then .fin (E.exp (-q * t))
  else if o = Put then .fin 0
  else .nan

/-- DeltaZeroSpot from blackscholes.go. -/
def DeltaZeroSpot (E : MathEnv K) (t q : K) (o : OptionType) : FP K :=
  if o = Call then .fin 0
  else if o = Put ∨ o = Straddle then .fin (-(E.exp (-q * t)))
  else .nan

/-- DeltaZeroVol from blackscholes.go, including the one half conventions at
the money. -/
def DeltaZeroVol (E : MathEnv K) (t x k r q : K) (o : OptionType) : FP K :=
  let dfq := E.exp (-q * t)
  let x2 := dfq * x
  let k2 := E.exp (-r * t) * k
  if o = Call then
    if x2 < k2 then .fin 0 else if k2 < x2 then .fin dfq else .fin (dfq / 2)
  else if o = Put then
    if x2 < k2 then .fin (-dfq) else if k2 < x2 then .fin 0 else .fin (-(dfq / 2))
  else if o = Straddle then
    if x2 < k2 then .fin (-dfq) else if k2 < x2 then .fin dfq else .fin 0
  else .nan

/-- GammaZeroVol from blackscholes.go: zero away from the discounted forward
at the money point, positive infinity there. -/
def GammaZeroVol (E : MathEnv K) (t x k r q : K) : FP K :=
  if E.exp (-q * t) * x - E.exp (-r * t) * k ≠ 0 then .fin 0 else .pinf

/-- ThetaZeroStrike from blackscholes.go. -/
def ThetaZeroStrike (E : MathEnv K) (t x q : K) (o : OptionType) : FP K :=
  if o = Call ∨ o = Straddle then .fin (q * x * E.exp (-q * t))
  else if o = Put then .fin 0
  else .nan

/-- ThetaZeroSpot from blackscholes.go. -/
def ThetaZeroSpot (E : MathEnv K) (t k r : K) (o : OptionType) : FP K :=
  if o = Call then .fin 0
  else if o = Put ∨ o = Straddle then .fin (r * k * E.exp (-r * t))
  else .nan

/-- ThetaZeroVol from blackscholes.go: discounts its spot and strike
arguments internally and branches on their order. -/
def ThetaZeroVol (E : MathEnv K) (t x k r q : K) (o : OptionType) : FP K :=
  let x2 := E.exp (-q * t) * x
  let k2 := E.exp (-r * t) * k
  if o = Call then
    if k2 < x2 then .fin (q * x2 - r * k2)
    else if x2 < k2 then .fin 0
    else .fin (q * x2)
  else if o = Put then
    if k2 < x2 then .fin 0
    else if x2 < k2 then .fin (r * k2 - q * x2)
    else .fin (r * k2)
  else if o = Straddle then
    if k2 < x2 then .fin (q * x2 - r * k2)
    else if x2 < k2 then .fin (r * k2 - q * x2)
    else .fin (q * x2 + r * k2)
  else .nan

/-- getd1d2 from blackscholes.go: the error cases in source order, then d1
and d2 computed on the discounted spot and strike. -/
def getd1d2 (E : MathEnv K) (vol t x k r q : K) : Except Err (K × K) :=
  if t ≤ 0 then .error .negTimeToExp
  else if vol ≤ 0 then .error .negVol
  else if x ≤ 0 ∨ k ≤ 0 then .error .invalidSpotStrike
  else
    let x2 := x * E.exp (-q * t)
    let k2 := k * E.exp (-r * t)
    let v2 := vol * E.sqrt t
    let d1 := E.log (x2 / k2) / v2 + v2 / 2
    .ok (d1, d1 - v2)

/-- Price from blackscholes.go (first revision): validation, the three
degenerate dispatches, the general Black Scholes formula per option type,
and the negative volatility reflection about the intrinsic value computed on
the already discounted spot and strike with zero rates. -/
def Price (E : MathEnv K) (vol t x k r q : K) (o : OptionType) :
    FP K × Option Err :=
  match CheckPriceParams t x k o with
  | some e => (.nan, some e)
  | none =>
    if x = 0 then (PriceZeroSpot E t k r o, none)
    else if k = 0 then (PriceZeroStrike E t x q o, none)
    else if vol = 0 then (.fin (Intrinsic E t x k r q o), none)
    else
      match getd1d2 E |vol| t x k r q with
      | .error e => (.nan, some e)
      | .ok (d1, d2) =>
        let Nd1 := E.normCDF d1
        let Nd2 := E.normCDF d2
        let x2 := x * E.exp (-q * t)
        let k2 := k * E.exp (-r * t)
        let p : K :=
          if o = Call then x2 * Nd1 - k2 * Nd2
          else if o = Put then x2 * (Nd1 - 1) - k2 * (Nd2 - 1)
          else if o = Straddle then (2 * Nd1 - 1) * x2 - (2 * Nd2 - 1) * k2
          else 0
        if vol < 0 then
          let intrinsic := Intrinsic E t x2 k2 0 0 o
          (.fin (intrinsic - (p - intrinsic)), none)
        else (.fin p, none)

/-- Delta from blackscholes.go (first revision).  Note the zero strike
branch passes the spot as the q argument of DeltaZeroStrike, exactly as the
Go call site does. -/
def Delta (E : MathEnv K) (vol t x k r q : K) (o : OptionType) :
    FP K × Option Err :=
  match CheckPriceParams t x k o with
  | some e => (.nan, some e)
  | none =>
    if x = 0 then (DeltaZeroSpot E t q o, none)
    else if k = 0 then (DeltaZeroStrike E t x o, none)
    else if vol = 0 then (DeltaZeroVol E t x k r q o, none)
    else
      match getd1d2 E |vol| t x k r q with
      | .error e => (.nan, some e)
      | .ok (d1, _) =>
        let Nd1 := E.normCDF d1
        let dd := E.exp (-q * t)
        if o = Call ∨ o = Put ∨ o = Straddle then
          let d : K :=
            if o = Call then dd * Nd1
            else if o = Put then dd * (Nd1 - 1)
            else dd * (2 * Nd1 - 1)
          if vol < 0 then
            let zvd := DeltaZeroVol E t x k r q o
            (zvd.sub ((FP.fin d).sub zvd), none)
          else (.fin d, none)
        else (.nan, some .unknownOptionType)

/-- Gamma from blackscholes.go (first revision): zero when spot or strike is
zero, GammaZeroVol at zero volatility, the usual density formula otherwise,
doubled for straddles, reflected about twice GammaZeroVol for negative
volatility. -/
def Gamma (E : MathEnv K) (vol t x k r q : K) (o : OptionType) :
    FP K × Option Err :=
  match CheckPriceParams t x k o with
  | some e => (.nan, some e)
  | none =>
    if x = 0 ∨ k = 0 then (.fin 0, none)
    else if vol = 0 then (GammaZeroVol E t x k r q, none)
    else
      match getd1d2 E |vol| t x k r q with
      | .error e => (.nan, some e)
      | .ok (d1, _) =>
        let g0 := E.exp (-q * t) * E.normPDF d1 / (x * |vol| * E.sqrt t)
        let g := if o = Straddle then 2 * g0 else g0
        if vol < 0 then
          ((FP.smul 2 (GammaZeroVol E t x k r q)).sub (.fin g), none)
        else (.fin g, none)

/-- Theta from blackscholes.go (first revision).  The Put branch multiplies
the density term by the square root of time (where the Call branch divides),
and the negative volatility reflection passes the already discounted spot
and strike to ThetaZeroVol, which discounts them again - both faithful to
the source. -/
def Theta (E : MathEnv K) (vol t x k r q : K) (o : OptionType) :
    FP K × Option Err :=
  match CheckPriceParams t x k o with
  | some e => (.nan, some e)
  | none =>
    if x = 0 then (ThetaZeroSpot E t k r o, none)
    else if k = 0 then (ThetaZeroStrike E t x q o, none)
    else if vol = 0 then (ThetaZeroVol E t x k r q o, none)
    else if t = 0 then (.ninf, none)
    else
      match getd1d2 E |vol| t x k r q with
      | .error e => (.nan, some e)
      | .ok (d1, d2) =>
        let v := |vol|
        let x2 := x * E.exp (-q * t)
        let k2 := k * E.exp (-r * t)
        let th : K :=
          if o = Call then
            -(1 / 2) * v * x2 * E.normPDF d1 / E.sqrt t
              - r * k2 * E.normCDF d2 + q * x2 * E.normCDF d1
          else if o = Put then
            -(1 / 2) * v * x2 * E.normPDF d1 * E.sqrt t
              + r * k2 * E.normCDF (-d2) - q * x2 * E.normCDF (-d1)
          else if o = Straddle then
            -v * x2 * E.normPDF d1 / E.sqrt t
              - r * k2 * (E.normCDF d2 - E.normCDF (-d2))
              + q * x2 * (E.normCDF d1 - E.normCDF (-d1))
          else 0
        if vol < 0 then
          ((FP.smul 2 (ThetaZeroVol E t x2 k2 r q o)).sub (.fin th), none)
        else (.fin th, none)

/-- Vega from blackscholes.go (first revision): zero on any of the four
degenerate inputs, otherwise the density formula, doubled for straddles and
negated for negative volatility. -/
def Vega (E : MathEnv K) (vol t x k r q : K) (o : OptionType) :
    FP K × Option Err :=
  match CheckPriceParams t x k o with
  | some e => (.nan, some e)
  | none =>
    if vol = 0 ∨ t = 0 ∨ x = 0 ∨ k = 0 then (.fin 0, none)
    else
      match getd1d2 E |vol| t x k r q with
      | .error e => (.nan, some e)
      | .ok (d1, _) =>
        let v0 := x * E.exp (-q * t - (1 / 2) * d1 * d1) * E.sqrt t * E.invSqrt2PI
        let v1 := if o = Straddle then 2 * v0 else v0
        (.fin (if vol < 0 then v1 * (-1) else v1), none)

/-- math.SmallestNonzeroFloat64, the smallest positive denormal float64. -/
def smallestNonzeroFloat64 : K := 1 / 2 ^ 1074

/-- Modelled from the spec: BSPriceNoErrorCheck is called by implied_vol.go
and shown in the README (a version of Price with an argument list and no
error checking) but its definition is not among the provided sources; it is
modelled as the Price computation with the parameter validation removed. -/
def BSPriceNoErrorCheck (E : MathEnv K) (vol t x k r q : K) (o : OptionType) :
    FP K :=
  if x = 0 then PriceZeroSpot E t k r o
  else if k = 0 then PriceZeroStrike E t x q o
  else if vol = 0 then .fin (Intrinsic E t x k r q o)
  else
    match getd1d2 E |vol| t x k r q with
    | .error _ => .nan
    | .ok (d1, d2) =>
      let Nd1 := E.normCDF d1
      let Nd2 := E.normCDF d2
      let x2 := x * E.exp (-q * t)
      let k2 := k * E.exp (-r * t)
      let p : K :=
        if o = Call then x2 * Nd1 - k2 * Nd2
        else if o = Put then x2 * (Nd1 - 1) - k2 * (Nd2 - 1)
        else if o = Straddle then (2 * Nd1 - 1) * x2 - (2 * Nd2 - 1) * k2
        else 0
      if vol < 0 then
        let intrinsic := Intrinsic E t x2 k2 0 0 o
        .fin (intrinsic - (p - intrinsic))
      else .fin p

namespace IV1

/-- tolDefault from implied_vol.go: 1.0 / (1 shifted left by 30). -/
def tolDefault : K := 1 / 2 ^ 30

/-- lbDefault from implied_vol.go. -/
def lbDefault : K := 1 / 100

/-- ubDefault from implied_vol.go. -/
def ubDefault : K := 199 / 100

/-- MaxItDefault from implied_vol.go. -/
def MaxItDefault : Int := 1000000

/-- ImpliedVolParams from implied_vol.go; the pointer-valued override fields
are modelled as options. -/
structure ImpliedVolParams (K : Type) where
  premium : K
  timeToExpiry : K
  underlying : K
  strike : K
  rate : K
  dividend : K
  otype : OptionType
  lb : Option K
  ub : Option K
  tol : Option K
  maxIt : Option Int

/-- GetVolSearchParams from implied_vol.go: defaults, each independently
replaced by a non-nil override. -/
def GetVolSearchParams (P : ImpliedVolParams K) : K × K × K × Int :=
  (P.lb.getD lbDefault, P.ub.getD ubDefault, P.tol.getD tolDefault,
    P.maxIt.getD MaxItDefault)

/-- CheckVolSearchParams from implied_vol.go, as a pure function returning
the repaired values. -/
def CheckVolSearchParams (lb ub tol : K) (maxit : Int) : K × K × K × Int :=
  (lb,
   if ub < lb then max (lb + 1) ubDefault else ub,
   if tol ≤ 0 then tolDefault else tol,
   if maxit ≤ 0 then MaxItDefault else maxit)

/-- CorrectVolSign from implied_vol.go: flip the volatility when its sign
disagrees with the extrinsic value, zero it when the extrinsic value is
exactly zero. -/
def CorrectVolSign (extr vol : FP K) : FP K :=
  if ((FP.fin 0).lt extr && vol.lt (.fin 0)) ||
      (extr.lt (.fin 0) && (FP.fin 0).lt vol) then vol.neg
  else if extr = .fin 0 then .fin 0
  else vol

/-- The lower bound search loop of ImpliedVol in implied_vol.go: evaluate
the price at lb, stop once it does not exceed the premium, otherwise step lb
down by 0.47; the fuel is the maximum iteration count and the last computed
price is carried so that the post-loop comparison sees it. -/
def findLB (E : MathEnv K) (p t x k r q : K) (o : OptionType) :
    Nat → K → FP K → K × FP K
  | 0, lb, plo => (lb, plo)
  | fuel + 1, lb, _ =>
    let plo2 := BSPriceNoErrorCheck E lb t x k r q o
    if plo2.le (.fin p) then (lb, plo2)
    else findLB E p t x k r q o fuel (lb - 47 / 100) plo2

/-- The upper bound search loop of ImpliedVol in implied_vol.go. -/
def findUB (E : MathEnv K) (p t x k r q : K) (o : OptionType) :
    Nat → K → FP K → K × FP K
  | 0, ub, phi => (ub, phi)
  | fuel + 1, ub, _ =>
    let phi2 := BSPriceNoErrorCheck E ub t x k r q o
    if (FP.fin p).le phi2 then (ub, phi2)
    else findUB E p t x k r q o fuel (ub + 47 / 100) phi2

/-- The bisection loop of ImpliedVol in implied_vol.go: stop when the
bracket is narrower than the tolerance or the midpoint price matches the
premium exactly, then sign-correct against the extrinsic value; running out
of iterations is the nonconvergence error.  A midpoint price comparable
with the premium in neither direction leaves the bracket unchanged, as the
Go switch does. -/
def bisect (E : MathEnv K) (p t x k r q : K) (o : OptionType)
    (intrval tol : K) : Nat → K → K → FP K × Option Err
  | 0, _, _ => (.nan, some .nonconvergence)
  | fuel + 1, lb, ub =>
    let vol := (lb + ub) / 2
    let pmid := BSPriceNoErrorCheck E vol t x k r q o
    if ub - lb < tol ∨ pmid = .fin p then
      (CorrectVolSign (pmid.sub (.fin intrval)) (.fin vol), none)
    else if (FP.fin p).lt pmid then bisect E p t x k r q o intrval tol fuel lb vol
    else if pmid.lt (.fin p) then bisect E p t x k r q o intrval tol fuel vol ub
    else bisect E p t x k r q o intrval tol fuel lb ub

/-- ImpliedVol from implied_vol.go: nil check, parameter validation, the
degenerate short-circuit to zero, the tiny-extrinsic short-circuit to zero,
then bound expansion and bisection. -/
def ImpliedVol (E : MathEnv K) (pars : Option (ImpliedVolParams K)) :
    FP K × Option Err :=
  match pars with
  | none => (.nan, some .nilPtrArg)
  | some P =>
    match CheckPriceParams P.timeToExpiry P.underlying P.strike P.otype with
    | some e => (.nan, some e)
    | none =>
      if P.timeToExpiry = 0 ∨ P.underlying = 0 ∨ P.strike = 0 then
        (.fin 0, none)
      else
        let intrval := Intrinsic E P.timeToExpiry P.underlying P.strike
          P.rate P.dividend P.otype
        let extrval := P.premium - intrval
        if |extrval| ≤ smallestNonzeroFloat64 then (.fin 0, none)
        else
          let s0 := GetVolSearchParams P
          let s1 := CheckVolSearchParams s0.1 s0.2.1 s0.2.2.1 s0.2.2.2
          let lb := s1.1
          let ub := s1.2.1
          let tol := s1.2.2.1
          let maxit := s1.2.2.2
          let fuel := maxit.toNat
          let lp := findLB E P.premium P.timeToExpiry P.underlying P.strike
            P.rate P.dividend P.otype fuel lb (.fin 0)
          if (FP.fin P.premium).lt lp.2 then (.nan, some .boundsNotFoundLower)
          else
            let up := findUB E P.premium P.timeToExpiry P.underlying P.strike
              P.rate P.dividend P.otype fuel ub (.fin 0)
            if up.2.lt (.fin P.premium) then (.nan, some .boundsNotFoundUpper)
            else bisect E P.premium P.timeToExpiry P.underlying P.strike
              P.rate P.dividend P.otype intrval tol fuel lp.1 up.1

end IV1

namespace IV3

/-- defaultTolerance from implvol.go. -/
def defaultTolerance : K := 1 / 2 ^ 30

/-- defaultUpperBound from implvol.go; its source value is 0.01. -/
def defaultUpperBound : K := 1 / 100

/-- defaultLowerBound from implvol.go; its source value is 1.99. -/
def defaultLowerBound : K := 199 / 100

/-- defaultMaxIterations from implvol.go. -/
def defaultMaxIterations : Int := 1000000

/-- ImpliedVolParams from implvol.go (the rewritten solver): only the four
search overrides. -/
structure ImpliedVolParams (K : Type) where
  lowerBound : Option K
  upperBound : Option K
  tolerance : Option K
  maxIterations : Option Int

/-- The default resolution of implvol.go ImpliedVol: tol, lb, ub, maxit in
the order of the Go assignment, each field of the first variadic params
entry overriding its default. -/
def getSearchParams (params : List (ImpliedVolParams K)) : K × K × K × Int :=
  match params with
  | [] => (defaultTolerance, defaultLowerBound, defaultUpperBound,
      defaultMaxIterations)
  | P :: _ => (P.tolerance.getD defaultTolerance,
      P.lowerBound.getD defaultLowerBound,
      P.upperBound.getD defaultUpperBound,
      P.maxIterations.getD defaultMaxIterations)

/-- CorrectVolSign from implvol.go: flips a sign mismatch and, unlike the
implied_vol.go revision, never zeroes the result. -/
def CorrectVolSign (extrinsic : K) (vol : FP K) : FP K :=
  if (decide (0 < extrinsic) && vol.lt (.fin 0)) ||
      (decide (extrinsic < 0) && (FP.fin 0).lt vol) then vol.neg
  else vol

/-- The bisection loop of implvol.go ImpliedVol, sharing the iteration
counter with the bound loop; the candidate volatility enters as NaN and is
only assigned inside the loop. -/
def bisectLoop (E : MathEnv K) (premium t x k r q : K) (o : OptionType)
    (tol : K) (maxit : Int) (extrinsic : K) :
    Nat → Nat → K → K → FP K → FP K × Option Err
  | 0, _, _, _, _ => (.nan, some .maxIterations)
  | fuel + 1, it, lb, ub, vol =>
    if tol < ub - lb then
      if maxit < (it : Int) then (.nan, some .maxIterations)
      else
        let vol2 := (lb + ub) / 2
        match Price E vol2 t x k r q o with
        | (_, some e) => (.nan, some e)
        | (price, none) =>
          if (FP.fin premium).lt price then
            bisectLoop E premium t x k r q o tol maxit extrinsic fuel
              (it + 1) lb vol2 (.fin vol2)
          else
            bisectLoop E premium t x k r q o tol maxit extrinsic fuel
              (it + 1) vol2 ub (.fin vol2)
    else (CorrectVolSign extrinsic vol, none)

/-- The bound adjustment loop of implvol.go ImpliedVol: while the premium
lies outside the bracketed prices, step the violated bound by 0.47 and
reprice, propagating any pricing error; on exit run the two dead residual
checks of the source and then the bisection. -/
def boundLoop (E : MathEnv K) (premium t x k r q : K) (o : OptionType)
    (tol : K) (maxit : Int) (extrinsic : K) :
    Nat → Nat → K → K → FP K → FP K → FP K × Option Err
  | 0, _, _, _, _, _ => (.nan, some .maxIterations)
  | fuel + 1, it, lb, ub, lo, hi =>
    if (FP.fin premium).lt lo || hi.lt (.fin premium) then
      if maxit < (it : Int) then (.nan, some .maxIterations)
      else
        match (if (FP.fin premium).lt lo then
                let lb2 := lb - 47 / 100
                match Price E lb2 t x k r q o with
                | (_, some e) => Except.error e
                | (lo2, none) => Except.ok (lb2, lo2)
              else Except.ok (lb, lo)) with
        | .error e => (.nan, some e)
        | .ok (lb2, lo2) =>
          match (if hi.lt (.fin premium) then
                  let ub2 := ub + 47 / 100
                  match Price E ub2 t x k r q o with
                  | (_, some e) => Except.error e
                  | (hi2, none) => Except.ok (ub2, hi2)
                else Except.ok (ub, hi)) with
          | .error e => (.nan, some e)
          | .ok (ub2, hi2) =>
            boundLoop E premium t x k r q o tol maxit extrinsic fuel
              (it + 1) lb2 ub2 lo2 hi2
    else
      if (FP.fin premium).lt lo then (.nan, some .boundsNotFoundLower)
      else if hi.lt (.fin premium) then (.nan, some .boundsNotFoundUpper)
      else bisectLoop E premium t x k r q o tol maxit extrinsic
        (maxit.toNat + 2) it lb ub .nan

/-- ImpliedVol from implvol.go: validation, the tiny-extrinsic
short-circuit (there is no degenerate time/spot/strike short-circuit in
this revision), default resolution, the two initial bound prices, then the
bound and bisection loops. -/
def ImpliedVol (E : MathEnv K) (premium t x k r q : K) (o : OptionType)
    (params : List (ImpliedVolParams K)) : FP K × Option Err :=
  match CheckPriceParams t x k o with
  | some e => (.nan, some e)
  | none =>
    let intrinsic := Intrinsic E t x k r q o
    let extrinsic := premium - intrinsic
    if |extrinsic| ≤ smallestNonzeroFloat64 then (.fin 0, none)
    else
      match getSearchParams params with
      | (tol, lb, ub, maxit) =>
        match Price E lb t x k r q o with
        | (_, some e) => (.nan, some e)
        | (lowPrice, none) =>
          match Price E ub t x k r q o with
          | (_, some e) => (.nan, some e)
          | (highPrice, none) =>
            boundLoop E premium t x k r q o tol maxit extrinsic
              (maxit.toNat + 2) 0 lb ub lowPrice highPrice

end IV3

namespace Sim

/-- BSPriceSim from sim.go (first revision): antithetic pairs indexed 1 to
n-1 plus a final pair, averaged over 2n and discounted once at the end.
The draw of goroutine i is modelled as rnd i and the final draw, taken
after the waitgroup, as rnd 0. -/
def BSPriceSim (E : MathEnv K) (rnd : Nat → K) (v t x k r q : K)
    (o : OptionType) (n : Nat) : FP K :=
  if !ValidOptionType o || n == 0 then .nan
  else
    let x0 := E.exp (-q * t) * x
    let m := x0 * E.exp ((r - 1 / 2 * v * v) * t)
    let s := v * E.sqrt t
    let sum := ((List.range n).drop 1).foldl (fun acc (i : Nat) =>
      let u := ((i : K) - 1 / 2 + rnd i) / (n : K)
      let e := E.exp (s * E.normCDFInv u)
      acc + Intrinsic E 0 (m * e) k 0 0 o + Intrinsic E 0 (m / e) k 0 0 o) 0
    let u := 1 / 2 * rnd 0 / (n : K)
    let e := E.exp (s * E.normCDFInv u)
    let sum2 := sum + Intrinsic E 0 (m * e) k 0 0 o +
      Intrinsic E 0 (m / e) k 0 0 o
    .fin (E.exp (-r * t) * sum2 / ((2 * n : Nat) : K))

end Sim

namespace Sim2

/-- BSPriceSim from sim.go (second revision): antithetic pairs indexed 0 to
n-1 via the gaussian quantile, averaged over 2n and returned with no
discount factor at all. -/
def BSPriceSim (E : MathEnv K) (rnd : Nat → K) (v t x k r q : K)
    (o : OptionType) (n : Nat) : FP K :=
  if !ValidOptionType o || n == 0 then .nan
  else
    let x0 := E.exp (-q * t) * x
    let m := x0 * E.exp ((r - 1 / 2 * v * v) * t)
    let s := v * E.sqrt t
    let sum := (List.range n).foldl (fun acc (i : Nat) =>
      let e := E.exp (s * E.normCDFInv (((i : K) - 1 / 2 + rnd i) / (n : K)))
      acc + Intrinsic E 0 (m * e) k 0 0 o + Intrinsic E 0 (m / e) k 0 0 o) 0
    .fin (sum / ((2 * n : Nat) : K))

end Sim2

/-- defaultNumPaths from the PriceSim source file. -/
def defaultNumPaths : Nat := 10000000

/-- PriceSim from the PriceSim source file: deterministic stratified
antithetic sampling over the odd indices below the path count, one
unpaired path at the mean when the count is odd, discounted once at the
end; a zero path count fails before the option type check. -/
def PriceSim (E : MathEnv K) (vol t x k r q : K) (o : OptionType)
    (numPaths : List Nat) : FP K × Option Err :=
  let npaths := numPaths.headD defaultNumPaths
  if npaths = 0 then (.nan, some .invalidPathCount)
  else if !ValidOptionType o then (.nan, some .unknownOptionType)
  else
    let expectedSpot := x * E.exp ((r - q) * t)
    let sigma := vol * E.sqrt t
    let mu := -(1 / 2) * sigma * sigma
    let sum := ((List.range npaths).filter (fun i => i % 2 == 1)).foldl
      (fun acc i =>
        let z := E.normCDFInv ((i : K) / (npaths : K))
        acc + Intrinsic E 0 (expectedSpot * E.exp (mu + sigma * z)) k 0 0 o
            + Intrinsic E 0 (expectedSpot * E.exp (mu - sigma * z)) k 0 0 o) 0
    let sum2 := if npaths % 2 = 1 then
        sum + Intrinsic E 0 (expectedSpot * E.exp mu) k 0 0 o
      else sum
    (.fin (E.exp (-r * t) * sum2 / (npaths : K)), none)

@[simp] lemma call_ne_put : ¬ Call = Put := by decide

@[simp] lemma call_ne_straddle : ¬ Call = Straddle := by decide

@[simp] lemma put_ne_call : ¬ Put = Call := by decide

@[simp] lemma put_ne_straddle : ¬ Put = Straddle := by decide

@[simp] lemma straddle_ne_call : ¬ Straddle = Call := by decide

@[simp] lemma straddle_ne_put : ¬ Straddle = Put := by decide

@[simp] lemma validOptionType_call : ValidOptionType Call = true := by decide

@[simp] lemma validOptionType_put : ValidOptionType Put = true := by decide

@[simp] lemma validOptionType_straddle : ValidOptionType Straddle = true := by
  decide

/-- A concrete computable environment over the rationals, used to evaluate
the embedded code at specific inputs: the primitive functions are simple
computable stand-ins (exp 0 = 1 holds, as for the real exponential). -/
def E0 : MathEnv ℚ where
  exp := fun z => 1 + z / 2
  log := fun _ => 0
  sqrt := fun z => z / 2
  normCDF := fun _ => 1 / 2
  normPDF := fun _ => 1
  normCDFInv := fun _ => 0
  invSqrt2PI := 1

/-- A concrete realization of the random draws for the simulators. -/
def rnd0 : Nat → ℚ := fun _ => 0

@[simp] lemma FP.sub_fin (a b : K) : (FP.fin a).sub (FP.fin b) = .fin (a - b) := by
  simp [FP.sub, FP.add, FP.neg, sub_eq_add_neg]

@[simp] lemma FP.add_fin (a b : K) : (FP.fin a).add (FP.fin b) = .fin (a + b) := rfl

@[simp] lemma FP.smul_fin (c a : K) : FP.smul c (.fin a) = .fin (c * a) := rfl

lemma checkPriceParams_none {t x k : K} {o : OptionType}
    (ho : ValidOptionType o = true) (ht : 0 ≤ t) (hx : 0 ≤ x) (hk : 0 ≤ k) :
    CheckPriceParams t x k o = none := by
  simp [CheckPriceParams, ho, not_lt.2 ht, not_lt.2 hx, not_lt.2 hk]

lemma max_zero_sub (f : K) : max 0 f - max 0 (-f) = f := by
  rcases le_total f 0 with h | h
  · rw [max_eq_left h, max_eq_right (neg_nonneg.2 h)]
    ring
  · rw [max_eq_right h, max_eq_left (neg_nonpos.2 h)]
    ring

lemma getd1d2_ok (E : MathEnv K) {vol t x k : K} (r q : K)
    (hv : 0 < vol) (ht : 0 < t) (hx : 0 < x) (hk : 0 < k) :
    getd1d2 E vol t x k r q =
      .ok (E.log (x * E.exp (-q * t) / (k * E.exp (-r * t))) / (vol * E.sqrt t)
            + vol * E.sqrt t / 2,
          E.log (x * E.exp (-q * t) / (k * E.exp (-r * t))) / (vol * E.sqrt t)
            + vol * E.sqrt t / 2 - vol * E.sqrt t) := by
  simp [getd1d2, not_le.2 ht, not_le.2 hv, not_le.2 hx, not_le.2 hk]

/-- Claim C2: for every input with volatility 0, spot and strike positive,
time to expiry nonnegative and a valid option type, Price returns exactly
the intrinsic value - max of 0 and the forward for a call, max of 0 and the
negated forward for a put, the absolute forward for a straddle, where the
forward is the dividend-discounted spot minus the rate-discounted strike -
with no error and no tolerance. -/
theorem price_zero_vol_intrinsic (E : MathEnv K) (t x k r q : K)
    (o : OptionType) (ho : ValidOptionType o = true) (ht : 0 ≤ t)
    (hx : 0 < x) (hk : 0 < k) :
    Price E 0 t x k r q o = (.fin (Intrinsic E t x k r q o), none) ∧
    Intrinsic E t x k r q Call =
      max 0 (E.exp (-q * t) * x - E.exp (-r * t) * k) ∧
    Intrinsic E t x k r q Put =
      max 0 (-(E.exp (-q * t) * x - E.exp (-r * t) * k)) ∧
    Intrinsic E t x k r q Straddle =
      |E.exp (-q * t) * x - E.exp (-r * t) * k| := by
  have hcp := checkPriceParams_none ho ht hx.le hk.le
  refine ⟨?_, by simp [Intrinsic], by simp [Intrinsic], by simp [Intrinsic]⟩
  simp [Price, hcp, hx.ne', hk.ne']

/-- Witness for C2 at a concrete input. -/
theorem price_zero_vol_intrinsic_witness :
    ValidOptionType Call = true ∧ (0:ℚ) ≤ 1 ∧
    Price E0 0 1 2 1 0 0 Call = (.fin (Intrinsic E0 1 2 1 0 0 Call), none) :=
  ⟨by decide, by norm_num,
    (price_zero_vol_intrinsic E0 1 2 1 0 0 Call (by decide) (by norm_num)
      (by norm_num) (by norm_num)).1⟩

/-- Claim C3: each of Price, Delta, Gamma, Theta, Vega validates before any
computation: an invalid option type yields NaN with the unknown option type
error, and a negative time to expiry, spot or strike yields NaN with the
respective negative parameter error. -/
theorem validation_failures (E : MathEnv K) (vol t x k r q : K)
    (o : OptionType) :
    (ValidOptionType o = false →
      Price E vol t x k r q o = (.nan, some .unknownOptionType) ∧
      Delta E vol t x k r q o = (.nan, some .unknownOptionType) ∧
      Gamma E vol t x k r q o = (.nan, some .unknownOptionType) ∧
      Theta E vol t x k r q o = (.nan, some .unknownOptionType) ∧
      Vega E vol t x k r q o = (.nan, some .unknownOptionType)) ∧
    (ValidOptionType o = true → t < 0 →
      Price E vol t x k r q o = (.nan, some .negTimeToExp) ∧
      Delta E vol t x k r q o = (.nan, some .negTimeToExp) ∧
      Gamma E vol t x k r q o = (.nan, some .negTimeToExp) ∧
      Theta E vol t x k r q o = (.nan, some .negTimeToExp) ∧
      Vega E vol t x k r q o = (.nan, some .negTimeToExp)) ∧
    (ValidOptionType o = true → 0 ≤ t → x < 0 →
      Price E vol t x k r q o = (.nan, some .negPrice) ∧
      Delta E vol t x k r q o = (.nan, some .negPrice) ∧
      Gamma E vol t x k r q o = (.nan, some .negPrice) ∧
      Theta E vol t x k r q o = (.nan, some .negPrice) ∧
      Vega E vol t x k r q o = (.nan, some .negPrice)) ∧
    (ValidOptionType o = true → 0 ≤ t → 0 ≤ x → k < 0 →
      Price E vol t x k r q o = (.nan, some .negStrike) ∧
      Delta E vol t x k r q o = (.nan, some .negStrike) ∧
      Gamma E vol t x k r q o = (.nan, some .negStrike) ∧
      Theta E vol t x k r q o = (.nan, some .negStrike) ∧
      Vega E vol t x k r q o = (.nan, some .negStrike)) := by
  refine ⟨fun ho => ?_, fun ho ht => ?_, fun ho ht hx => ?_,
    fun ho ht hx hk => ?_⟩
  · have hcp : CheckPriceParams t x k o = some .unknownOptionType := by
      simp [CheckPriceParams, ho]
    exact ⟨by simp [Price, hcp], by simp [Delta, hcp], by simp [Gamma, hcp],
      by simp [Theta, hcp], by simp [Vega, hcp]⟩
  · have hcp : CheckPriceParams t x k o = some .negTimeToExp := by
      simp [CheckPriceParams, ho, ht]
    exact ⟨by simp [Price, hcp], by simp [Delta, hcp], by simp [Gamma, hcp],
      by simp [Theta, hcp], by simp [Vega, hcp]⟩
  · have hcp : CheckPriceParams t x k o = some .negPrice := by
      simp [CheckPriceParams, ho, not_lt.2 ht, hx]
    exact ⟨by simp [Price, hcp], by simp [Delta, hcp], by simp [Gamma, hcp],
      by simp [Theta, hcp], by simp [Vega, hcp]⟩
  · have hcp : CheckPriceParams t x k o = some .negStrike := by
      simp [CheckPriceParams, ho, not_lt.2 ht, not_lt.2 hx, hk]
    exact ⟨by simp [Price, hcp], by simp [Delta, hcp], by simp [Gamma, hcp],
      by simp [Theta, hcp], by simp [Vega, hcp]⟩

/-- Witness for C3 at concrete inputs: a space character as option type and
a negative time to expiry. -/
theorem validation_failures_witness :
    ValidOptionType ' ' = false ∧
    Price E0 0 0 0 0 0 0 ' ' = (.nan, some .unknownOptionType) ∧
    Theta E0 1 (-1) 1 1 0 0 Call = (.nan, some .negTimeToExp) :=
  ⟨by decide,
    ((validation_failures E0 0 0 0 0 0 0 ' ').1 (by decide)).1,
    (((validation_failures E0 1 (-1) 1 1 0 0 Call).2.1 (by decide)
      (by norm_num)).2.2.2.1)⟩

/-- Claim C10: at zero volatility with positive spot and strike, Gamma is
positive infinity when the discounted forward is zero and zero otherwise;
when spot or strike is zero Gamma is zero; no error in any of these cases. -/
theorem gamma_zero_vol_cases (E : MathEnv K) (t x k r q : K) (o : OptionType)
    (ho : ValidOptionType o = true) (ht : 0 ≤ t) :
    (0 < x → 0 < k →
      Gamma E 0 t x k r q o =
        (if E.exp (-q * t) * x - E.exp (-r * t) * k = 0 then (.pinf, none)
         else (.fin 0, none))) ∧
    (x = 0 ∨ k = 0 → 0 ≤ x → 0 ≤ k →
      Gamma E 0 t x k r q o = (.fin 0, none)) := by
  constructor
  · intro hx hk
    have hcp := checkPriceParams_none ho ht hx.le hk.le
    simp only [Gamma, hcp, hx.ne', hk.ne', or_self, if_false, if_true,
      GammaZeroVol, or_false, if_pos rfl]
    split <;> simp_all
  · intro hor hx hk
    have hcp := checkPriceParams_none ho ht hx hk
    simp [Gamma, hcp, hor]

/-- Witness for C10 at concrete inputs: an at-the-money zero volatility
gamma is positive infinity, a zero spot gamma is zero. -/
theorem gamma_zero_vol_cases_witness :
    Gamma E0 0 1 1 1 0 0 Call = (.pinf, none) ∧
    Gamma E0 0 1 0 1 0 0 Call = (.fin 0, none) := by
  constructor
  · have h := (gamma_zero_vol_cases E0 1 1 1 0 0 Call (by decide)
      (by norm_num)).1 (by norm_num) (by norm_num)
    rw [h, if_pos (by norm_num [E0])]
  · exact (gamma_zero_vol_cases E0 1 0 1 0 0 Call (by decide)
      (by norm_num)).2 (Or.inl rfl) le_rfl (by norm_num)

/-- Claim C9: put call parity - for positive spot, strike and time to
expiry and nonzero volatility, the call price minus the put price equals
the dividend-discounted spot minus the rate-discounted strike, exactly in
the field arithmetic of the embedding.  The only property of the primitive
functions used is that exp at zero is one, as for the real exponential. -/
theorem put_call_parity (E : MathEnv K) (vol t x k r q : K)
    (hE : E.exp 0 = 1) (hv : vol ≠ 0) (ht : 0 < t) (hx : 0 < x)
    (hk : 0 < k) :
    FP.sub (Price E vol t x k r q Call).1 (Price E vol t x k r q Put).1 =
      .fin (x * E.exp (-q * t) - k * E.exp (-r * t)) := by
  have hcpC : CheckPriceParams t x k Call = none :=
    checkPriceParams_none (by decide) ht.le hx.le hk.le
  have hcpP : CheckPriceParams t x k Put = none :=
    checkPriceParams_none (by decide) ht.le hx.le hk.le
  have hd := getd1d2_ok E r q (abs_pos.2 hv) ht hx hk
  rcases hv.lt_or_lt with hneg | hpos
  · have hIC : Intrinsic E t (x * E.exp (-q * t)) (k * E.exp (-r * t)) 0 0
        Call = max 0 (E.exp (-q * t) * x - E.exp (-r * t) * k) := by
      simp [Intrinsic, hE]
      ring_nf
    have hIP : Intrinsic E t (x * E.exp (-q * t)) (k * E.exp (-r * t)) 0 0
        Put = max 0 (-(E.exp (-q * t) * x - E.exp (-r * t) * k)) := by
      simp [Intrinsic, hE]
      ring_nf
    simp only [Price, hcpC, hcpP, hx.ne', hk.ne', hv, if_false, if_true,
      if_neg hx.ne', if_neg hk.ne', if_neg hv, hd, if_pos hneg,
      if_pos rfl]
    simp only [put_ne_call, if_false, if_pos rfl, hIC, hIP, FP.sub_fin]
    rw [FP.fin.injEq]
    linear_combination
      2 * max_zero_sub (E.exp (-q * t) * x - E.exp (-r * t) * k)
  · simp only [Price, hcpC, hcpP, if_neg hx.ne', if_neg hk.ne',
      if_neg hv, hd, if_neg (not_lt.2 hpos.le), if_pos rfl]
    simp only [put_ne_call, eq_self_iff_true, if_true, if_false, FP.sub_fin]
    rw [FP.fin.injEq]
    ring

/-- Witness for C9 at a concrete input with negative volatility. -/
theorem put_call_parity_witness :
    E0.exp 0 = 1 ∧ ((-1 : ℚ) ≠ 0) ∧
    FP.sub (Price E0 (-1) 1 2 1 1 0 Call).1 (Price E0 (-1) 1 2 1 1 0 Put).1 =
      .fin (2 * E0.exp (-0 * 1) - 1 * E0.exp (-1 * 1)) :=
  ⟨by norm_num [E0], by norm_num,
    put_call_parity E0 (-1) 1 2 1 1 0 (by norm_num [E0]) (by norm_num)
      (by norm_num) (by norm_num) (by norm_num)⟩

lemma intrinsic_zero_rates (E : MathEnv K) (t x k r q : K) (o : OptionType)
    (hE : E.exp 0 = 1) :
    Intrinsic E t (x * E.exp (-q * t)) (k * E.exp (-r * t)) 0 0 o =
      Intrinsic E t x k r q o := by
  have harg : E.exp (-0 * t) * (x * E.exp (-q * t)) -
      E.exp (-0 * t) * (k * E.exp (-r * t)) =
      E.exp (-q * t) * x - E.exp (-r * t) * k := by
    rw [neg_zero, zero_mul, hE]
    ring
  simp only [Intrinsic, harg]

/-- The negative volatility reflection does hold for Price, for every
volatility: the price at minus sigma is twice the zero volatility price
minus the price at sigma, exactly. -/
lemma price_reflection (E : MathEnv K) (vol t x k r q : K) (o : OptionType)
    (hE : E.exp 0 = 1) (ho : ValidOptionType o = true) (ht : 0 < t)
    (hx : 0 < x) (hk : 0 < k) :
    (Price E (-vol) t x k r q o).1 =
      (FP.smul 2 (Price E 0 t x k r q o).1).sub
        ((Price E vol t x k r q o).1) := by
  have hcp := checkPriceParams_none ho ht.le hx.le hk.le
  have hI := intrinsic_zero_rates E t x k r q o hE
  rcases lt_trichotomy vol 0 with hneg | h0 | hpos
  · have hd := getd1d2_ok E r q (abs_pos.2 hneg.ne) ht hx hk
    have habs : |(-vol)| = |vol| := abs_neg vol
    simp only [Price, hcp, if_neg hx.ne', if_neg hk.ne',
      if_neg (neg_ne_zero.2 hneg.ne), if_neg hneg.ne, eq_self_iff_true,
      if_true, habs, hd, if_neg (not_lt.2 (neg_nonneg.2 hneg.le)),
      if_pos hneg, hI, FP.smul_fin, FP.sub_fin]
    rw [FP.fin.injEq]
    ring
  · subst h0
    simp only [neg_zero, Price, hcp, if_neg hx.ne', if_neg hk.ne',
      eq_self_iff_true, if_true, FP.smul_fin, FP.sub_fin]
    rw [FP.fin.injEq]
    ring
  · have hd := getd1d2_ok E r q (abs_pos.2 hpos.ne') ht hx hk
    have habs : |(-vol)| = |vol| := abs_neg vol
    simp only [Price, hcp, if_neg hx.ne', if_neg hk.ne',
      if_neg (neg_ne_zero.2 hpos.ne'), if_neg hpos.ne', eq_self_iff_true,
      if_true, habs, hd, if_pos (neg_neg_iff_pos.2 hpos),
      if_neg (not_lt.2 hpos.le), hI, FP.smul_fin, FP.sub_fin]
    rw [FP.fin.injEq]
    ring

/-- The negative volatility reflection does hold for Gamma for every
nonzero volatility, in the additive form of the claim: gamma at sigma plus
gamma at minus sigma equals twice the zero volatility gamma, including the
at-the-money case where the zero volatility gamma is infinite.  (In float
arithmetic the subtraction form breaks down only at that infinite point,
where twice infinity minus infinity is NaN.) -/
lemma gamma_reflection (E : MathEnv K) (vol t x k r q : K) (o : OptionType)
    (hv : vol ≠ 0) (ho : ValidOptionType o = true) (ht : 0 < t)
    (hx : 0 < x) (hk : 0 < k) :
    ((Gamma E vol t x k r q o).1).add ((Gamma E (-vol) t x k r q o).1) =
      FP.smul 2 (Gamma E 0 t x k r q o).1 := by
  have hcp := checkPriceParams_none ho ht.le hx.le hk.le
  have hd := getd1d2_ok E r q (abs_pos.2 hv) ht hx hk
  have habs : |(-vol)| = |vol| := abs_neg vol
  rcases hv.lt_or_lt with hneg | hpos
  · simp only [Gamma, hcp, hx.ne', hk.ne', or_self, if_false,
      if_neg (neg_ne_zero.2 hneg.ne), if_neg hneg.ne, eq_self_iff_true,
      if_true, habs, hd, if_neg (not_lt.2 (neg_nonneg.2 hneg.le)),
      if_pos hneg]
    rcases eq_or_ne (E.exp (-(q * t)) * x - E.exp (-(r * t)) * k) 0
        with h | h <;>
      simp [GammaZeroVol, h, FP.smul, FP.sub, FP.add, FP.neg]
  · simp only [Gamma, hcp, hx.ne', hk.ne', or_self, if_false,
      if_neg (neg_ne_zero.2 hpos.ne'), if_neg hpos.ne', eq_self_iff_true,
      if_true, habs, hd, if_pos (neg_neg_iff_pos.2 hpos),
      if_neg (not_lt.2 hpos.le)]
    rcases eq_or_ne (E.exp (-(q * t)) * x - E.exp (-(r * t)) * k) 0
        with h | h <;>
      simp [GammaZeroVol, h, FP.smul, FP.sub, FP.add, FP.neg]

/-- The negative volatility antisymmetry does hold for Vega, for every
volatility: the vega at minus sigma is the negation of the vega at sigma. -/
lemma vega_reflection (E : MathEnv K) (vol t x k r q : K) (o : OptionType)
    (ho : ValidOptionType o = true) (ht : 0 < t) (hx : 0 < x) (hk : 0 < k) :
    (Vega E (-vol) t x k r q o).1 = ((Vega E vol t x k r q o).1).neg := by
  have hcp := checkPriceParams_none ho ht.le hx.le hk.le
  rcases lt_trichotomy vol 0 with hneg | h0 | hpos
  · have hd := getd1d2_ok E r q (abs_pos.2 hneg.ne) ht hx hk
    have habs : |(-vol)| = |vol| := abs_neg vol
    simp only [Vega, hcp, if_neg (neg_ne_zero.2 hneg.ne), hneg.ne,
      ht.ne', hx.ne', hk.ne', or_self, or_false, false_or, if_false,
      habs, hd, if_neg (not_lt.2 (neg_nonneg.2 hneg.le)), if_pos hneg]
    split <;> (rw [FP.neg]; rw [FP.fin.injEq]; ring)
  · subst h0
    simp [Vega, hcp, FP.neg]
  · have hd := getd1d2_ok E r q (abs_pos.2 hpos.ne') ht hx hk
    have habs : |(-vol)| = |vol| := abs_neg vol
    simp only [Vega, hcp, if_neg (neg_ne_zero.2 hpos.ne'), hpos.ne',
      ht.ne', hx.ne', hk.ne', or_self, or_false, false_or, if_false,
      habs, hd, if_pos (neg_neg_iff_pos.2 hpos),
      if_neg (not_lt.2 hpos.le)]
    split <;> (rw [FP.neg]; rw [FP.fin.injEq]; ring)

/-- Claim C1, theta part, evaluated: the negative volatility reflection
demanded by the claim fails for Theta, because the reflection step passes
the already discounted spot and strike into ThetaZeroVol, which discounts
them again.  At volatility -1, time 1, spot 2, strike 1, rate 1, dividend 0
the code returns 7/4 while twice the zero volatility theta minus the
positive volatility theta is 5/4.  Price, Gamma and Vega do obey their
reflections; the repository itself skips its theta test with a fix-me
message. -/
theorem theta_reflection_eval :
    (Theta E0 (-1) 1 2 1 1 0 Call).1 = .fin (7 / 4) ∧
    (FP.smul 2 (Theta E0 0 1 2 1 1 0 Call).1).sub
      (Theta E0 1 1 2 1 1 0 Call).1 = .fin (5 / 4) ∧
    FP.fin ((7 : ℚ) / 4) ≠ .fin (5 / 4) := by
  refine ⟨?_, ?_, by norm_num⟩
  · norm_num [Theta, CheckPriceParams, ValidOptionType, getd1d2, E0,
      ThetaZeroVol, FP.smul, FP.sub, FP.add, FP.neg, abs_neg, abs_one]
  · norm_num [Theta, CheckPriceParams, ValidOptionType, getd1d2, E0,
      ThetaZeroVol, FP.smul, FP.sub, FP.add, FP.neg, abs_one]

lemma abs_eq_maxes (f : K) : |f| = max 0 f + max 0 (-f) := by
  rcases le_total f 0 with h | h
  · rw [abs_of_nonpos h, max_eq_left h, max_eq_right (neg_nonneg.2 h)]
    ring
  · rw [abs_of_nonneg h, max_eq_right h, max_eq_left (neg_nonpos.2 h)]
    ring

/-- The straddle decomposition does hold for Price, for every volatility
with positive spot, strike and time to expiry: the straddle price is the
call price plus the put price, exactly. -/
lemma price_straddle_decomposition (E : MathEnv K) (vol t x k r q : K)
    (ht : 0 < t) (hx : 0 < x) (hk : 0 < k) :
    (Price E vol t x k r q Straddle).1 =
      ((Price E vol t x k r q Call).1).add
        ((Price E vol t x k r q Put).1) := by
  have hcpS : CheckPriceParams t x k Straddle = none :=
    checkPriceParams_none (by decide) ht.le hx.le hk.le
  have hcpC : CheckPriceParams t x k Call = none :=
    checkPriceParams_none (by decide) ht.le hx.le hk.le
  have hcpP : CheckPriceParams t x k Put = none :=
    checkPriceParams_none (by decide) ht.le hx.le hk.le
  rcases lt_trichotomy vol 0 with hneg | h0 | hpos
  · have hd := getd1d2_ok E r q (abs_pos.2 hneg.ne) ht hx hk
    simp only [Price, hcpS, hcpC, hcpP, if_neg hx.ne', if_neg hk.ne',
      if_neg hneg.ne, hd, if_pos hneg, straddle_ne_call, straddle_ne_put,
      put_ne_call, eq_self_iff_true, if_true, if_false, Intrinsic,
      FP.add_fin]
    rw [FP.fin.injEq]
    linear_combination 2 * abs_eq_maxes
      (E.exp (-0 * t) * (x * E.exp (-q * t)) -
        E.exp (-0 * t) * (k * E.exp (-r * t)))
  · subst h0
    simp only [Price, hcpS, hcpC, hcpP, if_neg hx.ne', if_neg hk.ne',
      eq_self_iff_true, if_true, Intrinsic, straddle_ne_call,
      straddle_ne_put, put_ne_call, if_false, FP.add_fin]
    rw [FP.fin.injEq]
    linear_combination abs_eq_maxes
      (E.exp (-q * t) * x - E.exp (-r * t) * k)
  · have hd := getd1d2_ok E r q (abs_pos.2 hpos.ne') ht hx hk
    simp only [Price, hcpS, hcpC, hcpP, if_neg hx.ne', if_neg hk.ne',
      if_neg hpos.ne', hd, if_neg (not_lt.2 hpos.le), straddle_ne_call,
      straddle_ne_put, put_ne_call, eq_self_iff_true, if_true, if_false,
      FP.add_fin]
    rw [FP.fin.injEq]
    ring

/-- The straddle decomposition does hold for Vega, for every volatility
with positive spot, strike and time to expiry. -/
lemma vega_straddle_decomposition (E : MathEnv K) (vol t x k r q : K)
    (ht : 0 < t) (hx : 0 < x) (hk : 0 < k) :
    (Vega E vol t x k r q Straddle).1 =
      ((Vega E vol t x k r q Call).1).add
        ((Vega E vol t x k r q Put).1) := by
  have hcpS : CheckPriceParams t x k Straddle = none :=
    checkPriceParams_none (by decide) ht.le hx.le hk.le
  have hcpC : CheckPriceParams t x k Call = none :=
    checkPriceParams_none (by decide) ht.le hx.le hk.le
  have hcpP : CheckPriceParams t x k Put = none :=
    checkPriceParams_none (by decide) ht.le hx.le hk.le
  rcases eq_or_ne vol 0 with h0 | hv
  · subst h0
    simp [Vega, hcpS, hcpC, hcpP]
  · have hd := getd1d2_ok E r q (abs_pos.2 hv) ht hx hk
    simp only [Vega, hcpS, hcpC, hcpP, hv, ht.ne', hx.ne', hk.ne',
      or_self, or_false, false_or, if_false, hd, straddle_ne_call,
      straddle_ne_put, put_ne_call, call_ne_straddle, put_ne_straddle,
      eq_self_iff_true, if_true, FP.add_fin]
    rcases lt_or_ge vol 0 with hneg | hpos
    · simp only [if_pos hneg, FP.fin.injEq]
      ring
    · simp only [if_neg (not_lt.2 hpos), FP.fin.injEq]
      ring

/-- Claim C4, theta part, evaluated: the straddle decomposition fails for
Theta because the Put branch multiplies the density term by the square root
of time where the Call branch divides by it.  At volatility 1, time 4,
spot 1, strike 1, zero rates, the straddle theta is -1/2 while call theta
plus put theta is -5/4; the decomposition holds for Price, Delta, Gamma and
Vega. -/
theorem theta_straddle_decomposition_eval :
    (Theta E0 1 4 1 1 0 0 Straddle).1 = .fin (-(1 / 2)) ∧
    ((Theta E0 1 4 1 1 0 0 Call).1).add ((Theta E0 1 4 1 1 0 0 Put).1) =
      .fin (-(5 / 4)) ∧
    FP.fin (-(1 : ℚ) / 2) ≠ .fin (-(5 / 4)) := by
  refine ⟨?_, ?_, by norm_num⟩
  · norm_num [Theta, CheckPriceParams, ValidOptionType, getd1d2, E0,
      ThetaZeroVol, FP.smul, FP.sub, FP.add, FP.neg, abs_one]
  · norm_num [Theta, CheckPriceParams, ValidOptionType, getd1d2, E0,
      ThetaZeroVol, FP.smul, FP.sub, FP.add, FP.neg, abs_one]

/-- Claim C5, counterexample: the implvol.go revision of the solver has no
degenerate short-circuit - with zero time to expiry and a premium that
differs from the intrinsic value it propagates a pricing error instead of
returning volatility 0 with no error. -/
theorem implvol_no_degenerate_shortcircuit :
    IV3.ImpliedVol E0 5 0 100 100 0 0 Call [] =
      (.nan, some .negTimeToExp) ∧
    ((FP.nan : FP ℚ), (some Err.negTimeToExp : Option Err)) ≠
      (.fin 0, none) := by
  refine ⟨?_, by simp⟩
  norm_num [IV3.ImpliedVol, IV3.getSearchParams, IV3.defaultTolerance,
    IV3.defaultLowerBound, IV3.defaultUpperBound, IV3.defaultMaxIterations,
    CheckPriceParams, ValidOptionType, Intrinsic,
    smallestNonzeroFloat64, Price, getd1d2, E0]

/-- Claim C5, amended: in the implied_vol.go revision of the solver, any
parameters that pass validation with zero time to expiry, spot or strike
short-circuit to volatility 0 with no error, before the intrinsic value,
the search configuration, the bound expansion or the bisection are touched. -/
theorem impliedVol_degenerate_zero (E : MathEnv K)
    (P : IV1.ImpliedVolParams K)
    (hcp : CheckPriceParams P.timeToExpiry P.underlying P.strike P.otype =
      none)
    (hdeg : P.timeToExpiry = 0 ∨ P.underlying = 0 ∨ P.strike = 0) :
    IV1.ImpliedVol E (some P) = (.fin 0, none) := by
  simp [IV1.ImpliedVol, hcp, hdeg]

/-- Witness for the amended C5 at a concrete input. -/
theorem impliedVol_degenerate_zero_witness :
    IV1.ImpliedVol E0
      (some ⟨0, 0, 1, 1, 0, 0, Call, none, none, none, none⟩) =
      (.fin 0, none) :=
  impliedVol_degenerate_zero E0 _ (by norm_num [CheckPriceParams])
    (Or.inl rfl)

/-- Claim C6, evaluated: in implvol.go the default search configuration
resolves, in the source assignment order tolerance, lower bound, upper
bound, maximum iterations, to tolerance 2 to the -30 and maximum iteration
count one million as claimed, but the default lower bound is 1.99 and the
default upper bound is 0.01 - the two bracket constants carry swapped
values (implied_vol.go has lbDefault 0.01 and ubDefault 1.99). -/
theorem implvol_default_bounds_swapped :
    (IV3.getSearchParams [] : ℚ × ℚ × ℚ × Int) =
      (1 / 2 ^ 30, 199 / 100, 1 / 100, 1000000) ∧
    ((199 : ℚ) / 100 ≠ 1 / 100) := by
  constructor
  · norm_num [IV3.getSearchParams, IV3.defaultTolerance,
      IV3.defaultLowerBound, IV3.defaultUpperBound,
      IV3.defaultMaxIterations]
  · norm_num

/-- The implied_vol.go defaults, for contrast with the implvol.go ones:
lower bound 0.01, upper bound 1.99, tolerance 2 to the -30, one million
iterations, and each of the four settings independently overridable. -/
theorem iv1_defaults_and_overrides (p t x k r q : K) (o : OptionType)
    (lb ub tol : K) (mi : Int) :
    IV1.GetVolSearchParams ⟨p, t, x, k, r, q, o, none, none, none, none⟩ =
      (1 / 100, 199 / 100, 1 / 2 ^ 30, 1000000) ∧
    IV1.GetVolSearchParams
        ⟨p, t, x, k, r, q, o, some lb, none, none, none⟩ =
      (lb, 199 / 100, 1 / 2 ^ 30, 1000000) ∧
    IV1.GetVolSearchParams
        ⟨p, t, x, k, r, q, o, none, some ub, none, none⟩ =
      (1 / 100, ub, 1 / 2 ^ 30, 1000000) ∧
    IV1.GetVolSearchParams
        ⟨p, t, x, k, r, q, o, none, none, some tol, none⟩ =
      (1 / 100, 199 / 100, tol, 1000000) ∧
    IV1.GetVolSearchParams
        ⟨p, t, x, k, r, q, o, none, none, none, some mi⟩ =
      (1 / 100, 199 / 100, 1 / 2 ^ 30, mi) := by
  refine ⟨?_, ?_, ?_, ?_, ?_⟩ <;>
    simp [IV1.GetVolSearchParams, IV1.lbDefault, IV1.ubDefault,
      IV1.tolDefault, IV1.MaxItDefault]

/-- Claim C7, evaluated: the second revision of BSPriceSim in sim.go omits
the discount factor.  With one antithetic pair, volatility 0, time 1,
spot 2, strike 1, rate 1, both simulated terminal spots are 3 and the code
returns the undiscounted average 2, while the claimed value - the discount
factor times the payoff sum over twice the pair count - is 1. -/
theorem sim2_missing_discount :
    Sim2.BSPriceSim E0 rnd0 0 1 2 1 1 0 Call 1 = .fin 2 ∧
    FP.fin (E0.exp (-(1 : ℚ) * 1) *
      (Intrinsic E0 0 3 1 0 0 Call + Intrinsic E0 0 3 1 0 0 Call) / 2) =
      .fin 1 ∧
    FP.fin (2 : ℚ) ≠ .fin 1 := by
  refine ⟨?_, ?_, by norm_num⟩
  · norm_num [Sim2.BSPriceSim, ValidOptionType, E0, rnd0, Intrinsic,
      List.range_succ]
  · norm_num [Intrinsic, E0]

/-- Claim C8: PriceSim with a zero path count fails, returning NaN together
with the invalid path count error, before even the option type is looked
at. -/
theorem priceSim_zero_paths_error (E : MathEnv K) (vol t x k r q : K)
    (o : OptionType) (ns : List Nat) (h : ns.headD defaultNumPaths = 0) :
    PriceSim E vol t x k r q o ns = (.nan, some .invalidPathCount) := by
  have h2 : ns.head?.getD defaultNumPaths = 0 := by
    cases ns <;> simpa using h
  simp [PriceSim, h, h2]

/-- Witness for C8 at a concrete input. -/
theorem priceSim_zero_paths_error_witness :
    PriceSim E0 1 1 1 1 0 0 Call [0] = (.nan, some .invalidPathCount) :=
  priceSim_zero_paths_error E0 1 1 1 1 0 0 Call [0] rfl

/-- Claim C8, counterexample side: the BSPriceSim estimators of sim.go have
no error return at all - at path count 0 each returns the bare NaN value,
a silent NaN, so no invalid path count error can accompany it. -/
theorem bspricesim_zero_paths_silent_nan :
    Sim.BSPriceSim E0 rnd0 1 1 1 1 0 0 Call 0 = FP.nan ∧
    Sim2.BSPriceSim E0 rnd0 1 1 1 1 0 0 Call 0 = FP.nan := by
  constructor
  · simp [Sim.BSPriceSim]
  · simp [Sim2.BSPriceSim]

end BS
